import Mathlib

/-!
Shallow embedding of the HTTPServer connection driver
(namespace httpsserver, file HTTPServer.cpp section of the sources),
in its cooperative configuration (HTTPS_TASK_PER_CONNECTION not defined).

External collaborator results (select readiness, acceptConnection return
codes, socket, bind and listen return codes, elapsed milliseconds) are
supplied as environment parameters; everything else follows the C++ code
line by line.
-/

namespace HttpsServer

/-- Model of one HTTPConnection as the driver observes it: its socket
descriptor, the value its isTerminated() query returns when the driver asks
during the current loop call, and the number of closeConnection() requests
the occupant still needs before its isClosed() query reports true (the
spec assumes every occupant eventually closes, so this count is finite). -/
structure Conn where
  sock : Int
  term : Bool
  closeNeeds : Nat
deriving DecidableEq, Repr

/-- Model of the HTTPServer fields that the claims are about: the slot
array `_connections` (length `_maxConnections`, entries NULL or owning a
connection), `_socket`, `_pendingConnection`, the one-slot `_pendingQueue`,
`_running` and `_defaultHeaders`. -/
structure ServerState where
  socket : Int
  connections : List (Option Conn)
  pendingConnection : Bool
  pendingQueue : Option Int
  running : Bool
  defaultHeaders : List (String × String)
deriving DecidableEq, Repr

/-- Step 1 of HTTPServer::loop (the scan over `_connections`): slots whose
occupant reports isTerminated() are deleted and set to NULL; every slot
found NULL (originally or after deletion) overwrites `freeConnectionIdx`
with its index. The accumulator `free` threads that variable; `i` is the
index of the head slot. -/
def step1Go : List (Option Conn) → Int → Int → List (Option Conn) × Int
  | [], _, free => ([], free)
  | slot :: rest, i, free =>
    match slot with
    | none =>
      let r := step1Go rest (i + 1) i
      (none :: r.1, r.2)
    | some c =>
      if c.term then
        let r := step1Go rest (i + 1) i
        (none :: r.1, r.2)
      else
        let r := step1Go rest (i + 1) free
        (some c :: r.1, r.2)

/-- The slot scan of HTTPServer::loop started with `freeConnectionIdx = -1`
at index 0. Returns the updated slot array and the final value of
`freeConnectionIdx`. -/
def step1 (slots : List (Option Conn)) : List (Option Conn) × Int :=
  step1Go slots 0 (-1)

/-- The re-scan after a pending admission (HTTPServer::loop, the for loop
after startConnection): `freeConnectionIdx` is reset to -1 and overwritten
with the index of every NULL slot. -/
def rescanGo : List (Option Conn) → Int → Int → Int
  | [], _, free => free
  | slot :: rest, i, free =>
    rescanGo rest (i + 1) (if slot.isNone then i else free)

/-- Value of `freeConnectionIdx` after the re-scan loop. -/
def rescanFree (slots : List (Option Conn)) : Int :=
  rescanGo slots 0 (-1)

/-- HTTPServer::startConnection in the cooperative configuration. First it
clears `_pendingConnection` and drains `_pendingQueue` (xQueueReceive with
zero timeout), then createConnection allocates a connection (the object is
environment-supplied as `newConn`), installs it at `idx`, initializes it
with the listener socket and a pointer to `_defaultHeaders`, and returns
the result of acceptConnection() (environment-supplied as `acceptResult`).
When that result is negative the slot is deleted and reset to NULL. -/
def startConnection (s : ServerState) (idx : Nat) (newConn : Conn)
    (acceptResult : Int) : ServerState × Int :=
  let s1 := { s with pendingConnection := false, pendingQueue := none }
  let s2 := { s1 with connections := s1.connections.set idx (some newConn) }
  if acceptResult < 0 then
    ({ s2 with connections := s2.connections.set idx none }, acceptResult)
  else
    (s2, acceptResult)

/-- Environment of one HTTPServer::loop call: whether select reports the
listener socket read-ready (only possible when the listener was placed in
the read set), the connection objects and acceptConnection() results for
the at most two startConnection calls of this loop call, and the
milliseconds that millis() advanced during the call. -/
structure LoopEnv where
  listenerReady : Bool
  conn1 : Conn
  accept1 : Int
  conn2 : Conn
  accept2 : Int
  elapsedMs : Nat
deriving DecidableEq, Repr

/-- Result of one HTTPServer::loop call: the new server state, the
returned remaining-milliseconds value, and the slot indices passed to
startConnection during the call, in order. -/
structure LoopOut where
  state : ServerState
  residual : Int
  admitted : List Nat
deriving DecidableEq, Repr

/-- The remaining-time computation at the end of HTTPServer::loop:
`uint32_t deltaMs = (startMs + timeoutMs - millis())`, clamped to 0 when
above 0x7FFFFFFF, returned as int. In uint32 arithmetic `deltaMs` equals
`(timeoutMs - elapsedMs) mod 2^32`. -/
def residualMs (timeoutMs : Int) (elapsedMs : Nat) : Int :=
  let delta : Nat := ((timeoutMs - (elapsedMs : Int)) % 4294967296).toNat
  if delta > 2147483647 then 0 else (delta : Int)

/-- Steps 1 and 2 of HTTPServer::loop for a running server: the slot scan,
then, when `_pendingConnection` is set and a free index was found, the
pending admission followed by the re-scan. Returns the state, the value of
`freeConnectionIdx`, and the indices admitted so far. -/
def loopMid (s : ServerState) (env : LoopEnv) :
    ServerState × Int × List Nat :=
  let p1 := step1 s.connections
  let s1 := { s with connections := p1.1 }
  let free1 := p1.2
  if s1.pendingConnection && decide (free1 > -1) then
    let r := startConnection s1 free1.toNat env.conn1 env.accept1
    (r.1, rescanFree r.1.connections, [free1.toNat])
  else
    (s1, free1, [])

/-- Step 3 of HTTPServer::loop: the listener socket joined the read set
only when `_pendingConnection` was false, so select can report it
read-ready only then; on listener readiness, either admit at
`freeConnectionIdx` (when one is free) or, when additionally the flag is
not yet set, set `_pendingConnection` and send the listener socket into
`_pendingQueue` (xQueueSend with zero timeout: a full queue is left as
is). -/
def loopPoll (s2 : ServerState) (free2 : Int) (env : LoopEnv) :
    ServerState × List Nat :=
  if !s2.pendingConnection && env.listenerReady then
    if free2 > -1 then
      let r := startConnection s2 free2.toNat env.conn2 env.accept2
      (r.1, [free2.toNat])
    else if s2.pendingConnection = false then
      ({ s2 with
          pendingConnection := true,
          pendingQueue :=
            match s2.pendingQueue with
            | some x => some x
            | none => some s2.socket }, ([] : List Nat))
    else (s2, [])
  else (s2, [])

/-- HTTPServer::loop in the cooperative configuration. When `_running` is
false it only sleeps and returns 0. Otherwise: steps 1 and 2 (loopMid),
then the select poll and its listener handling (loopPoll), then the
clamped remaining time is returned. -/
def loop (s : ServerState) (env : LoopEnv) (timeoutMs : Int) : LoopOut :=
  if s.running = false then
    { state := s, residual := 0, admitted := [] }
  else
    let mid := loopMid s env
    let after := loopPoll mid.1 mid.2.1 env
    { state := after.1,
      residual := residualMs timeoutMs env.elapsedMs,
      admitted := mid.2.2 ++ after.2 }

/-- One closeConnection() request delivered to an occupant: the count of
still-needed requests drops by one (already-closed occupants stay at 0). -/
def closeStep (c : Conn) : Conn :=
  { c with closeNeeds := c.closeNeeds - 1 }

/-- The isClosed() query of an occupant: true once no further
closeConnection() requests are needed. -/
def isClosed (c : Conn) : Bool :=
  c.closeNeeds == 0

/-- One pass of the cleanup while loop in HTTPServer::stop: every occupied
slot gets closeConnection(); a slot whose occupant then reports isClosed()
is deleted and set to NULL, otherwise `hasOpenConnections` is set. Returns
the updated slots and the final `hasOpenConnections` value. -/
def sweepOnce : List (Option Conn) → List (Option Conn) × Bool
  | [] => ([], false)
  | none :: rest =>
    let r := sweepOnce rest
    (none :: r.1, r.2)
  | some c :: rest =>
    let c' := closeStep c
    let r := sweepOnce rest
    if isClosed c' then (none :: r.1, r.2) else (some c' :: r.1, true)

/-- Total closeConnection() requests still needed across the pool; the
termination measure of the stop sweep loop. -/
def poolMeasure : List (Option Conn) → Nat
  | [] => 0
  | none :: rest => poolMeasure rest
  | some c :: rest => c.closeNeeds + poolMeasure rest

/-- The cleanup while loop of HTTPServer::stop: sweep, and repeat as long
as `hasOpenConnections` came back true (with a delay(1) between passes,
irrelevant to state). Its totality is the termination argument for stop:
the total outstanding close count strictly decreases on every repeated
pass. -/
def drainSlots (slots : List (Option Conn)) : List (Option Conn) :=
  let r := sweepOnce slots
  if h : r.2 = true then drainSlots r.1 else r.1
termination_by poolMeasure slots
decreasing_by
  have key : ∀ l : List (Option Conn),
      poolMeasure (sweepOnce l).1 ≤ poolMeasure l ∧
      ((sweepOnce l).2 = true → poolMeasure (sweepOnce l).1 < poolMeasure l) := by
    intro l
    induction l with
    | nil => simp [sweepOnce, poolMeasure]
    | cons slot rest ih =>
      cases slot with
      | none =>
        simp only [sweepOnce, poolMeasure]
        exact ih
      | some c =>
        simp only [sweepOnce, closeStep, isClosed]
        split
        · next hc =>
          have hc' : c.closeNeeds - 1 = 0 := by simpa using hc
          simp only [poolMeasure]
          refine ⟨by have := ih.1; omega, fun hb => by have := ih.2 hb; omega⟩
        · next hc =>
          have hc' : ¬ (c.closeNeeds - 1 = 0) := by simpa using hc
          simp only [poolMeasure]
          refine ⟨by have := ih.1; omega, fun _ => by have := ih.1; omega⟩
  exact (key slots).2 h

/-- HTTPServer::teardownSocket: close the listener socket and mark it
unbound. -/
def teardownSocket (s : ServerState) : ServerState :=
  { s with socket := -1 }

/-- HTTPServer::stop: no-op when not running; otherwise clear `_running`,
run the cleanup while loop until no slot is occupied, then tear down the
listener socket. `_pendingConnection` and `_pendingQueue` are not
touched. -/
def stop (s : ServerState) : ServerState :=
  if s.running = true then
    teardownSocket
      { s with running := false, connections := drainSlots s.connections }
  else s

/-- Environment of HTTPServer::setupSocket: the descriptor returned by
socket() (negative on failure) and whether bind() and listen() return 0. -/
structure SetupEnv where
  sockFd : Int
  bindOk : Bool
  listenOk : Bool
deriving DecidableEq, Repr

/-- HTTPServer::setupSocket: `_socket = socket(...)`; when that descriptor
is nonnegative, bind and then listen (backlog `_maxConnections`); on bind
or listen failure the socket is closed and `_socket` reset to -1; on
socket() failure `_socket` is set to -1. Returns the new state and the
uint8 success flag. -/
def setupSocket (s : ServerState) (env : SetupEnv) : ServerState × Bool :=
  if env.sockFd ≥ 0 then
    if env.bindOk then
      if env.listenOk then ({ s with socket := env.sockFd }, true)
      else ({ s with socket := -1 }, false)
    else ({ s with socket := -1 }, false)
  else ({ s with socket := -1 }, false)

/-- HTTPServer::start: when already running, return 1 with no state
change; otherwise run setupSocket and, on success, set `_running` and
return 1, else return 0. -/
def start (s : ServerState) (env : SetupEnv) : ServerState × Nat :=
  if s.running = false then
    let r := setupSocket s env
    if r.2 = true then ({ r.1 with running := true }, 1)
    else (r.1, 0)
  else (s, 1)

/-- Modelled from the spec: HTTPHeaders::set (class HTTPHeaders is part of
this repository but its source is not present here). The spec describes
`_defaultHeaders` as an ordered name to value mapping that is never
removed from, only appended to or overwritten by name. -/
def headersSet (hs : List (String × String)) (n v : String) :
    List (String × String) :=
  if hs.any (fun p => p.1 == n) then
    hs.map (fun p => if p.1 == n then (n, v) else p)
  else hs ++ [(n, v)]

/-- HTTPServer::setDefaultHeader: `_defaultHeaders.set(new HTTPHeader(name,
value))`, an in-place update of the shared mapping. -/
def setDefaultHeader (s : ServerState) (n v : String) : ServerState :=
  { s with defaultHeaders := headersSet s.defaultHeaders n v }

/-- The headers mapping an admitted connection holds. createConnection
passes `&_defaultHeaders` — a pointer to the shared server field — to the
connection, so at any moment the mapping reachable through that pointer is
the current value of `_defaultHeaders` (modelled from the spec for the
connection side: the collaborator stores the reference it was given and
may re-read it per request). -/
def connectionHeaders (s : ServerState) : List (String × String) :=
  s.defaultHeaders

/-- The select timeout computation in HTTPServer::loop:
`timeout.tv_sec = timeoutMs / 1000` and
`timeout.tv_usec = (timeoutMs - timeout.tv_sec) * 1000` (note: the
subtrahend is tv_sec itself, seconds, not tv_sec * 1000). C integer
division truncates, hence Int.tdiv. -/
def pollTimeout (timeoutMs : Int) : Int × Int :=
  let sec := timeoutMs.tdiv 1000
  (sec, (timeoutMs - sec) * 1000)

/-- Total microseconds select is asked to wait for. -/
def pollTimeoutMicros (timeoutMs : Int) : Int :=
  (pollTimeout timeoutMs).1 * 1000000 + (pollTimeout timeoutMs).2

/-- Effect of the step 1 scan on one slot considered in isolation: a slot
whose occupant reports isTerminated() is deleted, everything else is kept.
Used to characterise the scan. -/
def reclaimSlot : Option Conn → Option Conn
  | none => none
  | some c => if c.term then none else some c

/-- Index of the last NULL slot of a list, if any; the characterisation of
the value the overwriting scan leaves in `freeConnectionIdx`. -/
def lastNoneIdx : List (Option Conn) → Option Nat
  | [] => none
  | slot :: rest =>
    match lastNoneIdx rest with
    | some k => some (k + 1)
    | none => if slot.isNone then some 0 else none

/-- Terminated occupant with the given socket descriptor. -/
def cT (fd : Int) : Conn :=
  { sock := fd, term := true, closeNeeds := 0 }

/-- Live occupant with the given socket descriptor. -/
def cL (fd : Int) : Conn :=
  { sock := fd, term := false, closeNeeds := 0 }

/-- A running server skeleton used by the concrete scenarios. -/
def baseServer : ServerState :=
  { socket := 3, connections := [], pendingConnection := false,
    pendingQueue := none, running := true, defaultHeaders := [] }

/-- Running server, capacity 2, both slots free, admission gate raised
(a connection was deferred earlier and both occupants have since been
reclaimed). -/
def sTwoFree : ServerState :=
  { baseServer with connections := [none, none],
                    pendingConnection := true, pendingQueue := some 3 }

/-- Running server, capacity 2, both slots occupied by terminated
occupants, admission gate raised. -/
def sTwoTerm : ServerState :=
  { baseServer with connections := [some (cT 4), some (cT 5)],
                    pendingConnection := true, pendingQueue := some 3 }

/-- Running server, capacity 1, slot occupied by a live connection, gate
not raised. -/
def sFull : ServerState :=
  { baseServer with connections := [some (cL 4)] }

/-- Running server, capacity 1, slot free, gate not raised. -/
def sOne : ServerState :=
  { baseServer with connections := [none] }

/-- Running server whose occupants need 3 and 0 further closeConnection()
requests respectively before reporting closed. -/
def sStop : ServerState :=
  { baseServer with connections :=
      [some { sock := 4, term := false, closeNeeds := 3 }, none,
       some { sock := 5, term := false, closeNeeds := 0 }] }

/-- Stopped server. -/
def sIdle : ServerState :=
  { baseServer with running := false, socket := -1, connections := [none] }

/-- Loop environment with no listener readiness. -/
def envQuiet : LoopEnv :=
  { listenerReady := false, conn1 := cL 10, accept1 := 10,
    conn2 := cL 11, accept2 := 11, elapsedMs := 40 }

/-- Loop environment in which select reports the listener read-ready. -/
def envBusy : LoopEnv :=
  { envQuiet with listenerReady := true }

/-- Environment in which socket(), bind() and listen() all succeed. -/
def envSetupGood : SetupEnv :=
  { sockFd := 3, bindOk := true, listenOk := true }

/-- Environment in which bind() fails. -/
def envSetupBad : SetupEnv :=
  { sockFd := 3, bindOk := false, listenOk := true }

theorem sweepOnce_measure_le (l : List (Option Conn)) :
    poolMeasure (sweepOnce l).1 ≤ poolMeasure l := by
  induction l with
  | nil => simp [sweepOnce, poolMeasure]
  | cons slot rest ih =>
    cases slot with
    | none =>
      simp only [sweepOnce, poolMeasure]
      exact ih
    | some c =>
      simp only [sweepOnce, closeStep, isClosed]
      split
      · simp only [poolMeasure]
        omega
      · simp only [poolMeasure]
        omega

theorem sweepOnce_measure_lt (l : List (Option Conn))
    (h : (sweepOnce l).2 = true) :
    poolMeasure (sweepOnce l).1 < poolMeasure l := by
  induction l with
  | nil => simp [sweepOnce] at h
  | cons slot rest ih =>
    cases slot with
    | none =>
      simp only [sweepOnce, poolMeasure] at h ⊢
      exact ih h
    | some c =>
      simp only [sweepOnce, closeStep, isClosed] at h ⊢
      split at h
      · next hc =>
        have hc' : c.closeNeeds - 1 = 0 := by simpa using hc
        simp only [hc, if_pos, poolMeasure] at h ⊢
        have := ih h
        omega
      · next hc =>
        have hc' : ¬ (c.closeNeeds - 1 = 0) := by simpa using hc
        simp only [hc, if_neg, not_false_iff, poolMeasure] at h ⊢
        have := sweepOnce_measure_le rest
        omega

theorem sweepOnce_length (l : List (Option Conn)) :
    (sweepOnce l).1.length = l.length := by
  induction l with
  | nil => simp [sweepOnce]
  | cons slot rest ih =>
    cases slot with
    | none => simpa [sweepOnce] using ih
    | some c =>
      simp only [sweepOnce]
      split <;> simpa using ih

theorem sweepOnce_false_all_none (l : List (Option Conn))
    (h : (sweepOnce l).2 = false) :
    ∀ x ∈ (sweepOnce l).1, x = none := by
  induction l with
  | nil => simp [sweepOnce]
  | cons slot rest ih =>
    cases slot with
    | none =>
      simp only [sweepOnce] at h ⊢
      intro x hx
      rcases List.mem_cons.mp hx with hx | hx
      · exact hx
      · exact ih h x hx
    | some c =>
      simp only [sweepOnce] at h ⊢
      split at h
      · next hc =>
        simp only [hc, if_pos] at h ⊢
        intro x hx
        rcases List.mem_cons.mp hx with hx | hx
        · exact hx
        · exact ih h x hx
      · simp at h

theorem drainSlots_all_none (l : List (Option Conn)) :
    ∀ x ∈ drainSlots l, x = none := by
  rw [drainSlots]
  by_cases h : (sweepOnce l).2 = true
  · rw [dif_pos h]
    exact drainSlots_all_none (sweepOnce l).1
  · rw [dif_neg h]
    exact sweepOnce_false_all_none l (by simpa using h)
termination_by poolMeasure l
decreasing_by exact sweepOnce_measure_lt l h

theorem drainSlots_length (l : List (Option Conn)) :
    (drainSlots l).length = l.length := by
  rw [drainSlots]
  by_cases h : (sweepOnce l).2 = true
  · rw [dif_pos h]
    rw [drainSlots_length (sweepOnce l).1]
    exact sweepOnce_length l
  · rw [dif_neg h]
    exact sweepOnce_length l
termination_by poolMeasure l
decreasing_by exact sweepOnce_measure_lt l h

theorem step1Go_fst (l : List (Option Conn)) (i f : Int) :
    (step1Go l i f).1 = l.map reclaimSlot := by
  induction l generalizing i f with
  | nil => simp [step1Go]
  | cons slot rest ih =>
    cases slot with
    | none => simp [step1Go, reclaimSlot, ih]
    | some c =>
      by_cases hc : c.term
      · simp [step1Go, reclaimSlot, hc, ih]
      · simp [step1Go, reclaimSlot, hc, ih]

theorem rescanGo_eq_lastNoneIdx (l : List (Option Conn)) (i f : Int) :
    rescanGo l i f =
      (match lastNoneIdx l with
       | some k => i + k
       | none => f) := by
  induction l generalizing i f with
  | nil => simp [rescanGo, lastNoneIdx]
  | cons slot rest ih =>
    simp only [rescanGo, lastNoneIdx, ih]
    cases hrest : lastNoneIdx rest with
    | some k =>
      simp only []
      push_cast
      ring
    | none =>
      cases slot with
      | none => simp
      | some c => simp

theorem step1Go_snd (l : List (Option Conn)) (i f : Int) :
    (step1Go l i f).2 = rescanGo (l.map reclaimSlot) i f := by
  induction l generalizing i f with
  | nil => simp [step1Go, rescanGo]
  | cons slot rest ih =>
    cases slot with
    | none => simp [step1Go, rescanGo, reclaimSlot, ih]
    | some c =>
      by_cases hc : c.term
      · simp [step1Go, rescanGo, reclaimSlot, hc, ih]
      · simp [step1Go, rescanGo, reclaimSlot, hc, ih]

theorem lastNoneIdx_eq_none (l : List (Option Conn))
    (h : lastNoneIdx l = none) :
    ∀ j : Nat, l.get? j ≠ some none := by
  induction l with
  | nil => intro j; simp
  | cons slot rest ih =>
    simp only [lastNoneIdx] at h
    cases hrest : lastNoneIdx rest with
    | some k => simp [hrest] at h
    | none =>
      simp only [hrest] at h
      have hslot : ¬ slot.isNone := by
        by_contra hs
        simp [hs] at h
      intro j
      cases j with
      | zero =>
        cases slot with
        | none => simp at hslot
        | some c => simp
      | succ j' =>
        simpa using ih hrest j'

theorem lastNoneIdx_eq_some (l : List (Option Conn)) (k : Nat)
    (h : lastNoneIdx l = some k) :
    l.get? k = some none ∧ ∀ j : Nat, k < j → l.get? j ≠ some none := by
  induction l generalizing k with
  | nil => simp [lastNoneIdx] at h
  | cons slot rest ih =>
    simp only [lastNoneIdx] at h
    cases hrest : lastNoneIdx rest with
    | some k' =>
      simp only [hrest, Option.some.injEq] at h
      subst h
      obtain ⟨hmem, hmax⟩ := ih k' hrest
      constructor
      · simpa using hmem
      · intro j hj
        cases j with
        | zero => omega
        | succ j' =>
          have : k' < j' := by omega
          simpa using hmax j' this
    | none =>
      simp only [hrest] at h
      have hslot : slot.isNone := by
        by_contra hs
        simp [hs] at h
      have hk : k = 0 := by
        by_contra hk
        simp [hslot] at h
        omega
      subst hk
      constructor
      · cases slot with
        | none => simp
        | some c => simp at hslot
      · intro j hj
        cases j with
        | zero => omega
        | succ j' =>
          simpa using lastNoneIdx_eq_none rest hrest j'

theorem step1_fst (slots : List (Option Conn)) :
    (step1 slots).1 = slots.map reclaimSlot :=
  step1Go_fst slots 0 (-1)

theorem step1_snd (slots : List (Option Conn)) :
    (step1 slots).2 = rescanFree (slots.map reclaimSlot) :=
  step1Go_snd slots 0 (-1)

theorem rescanFree_spec (l : List (Option Conn)) :
    (rescanFree l = -1 ∧ ∀ j : Nat, l.get? j ≠ some none) ∨
    (∃ k : Nat, rescanFree l = (k : Int) ∧ l.get? k = some none ∧
       ∀ j : Nat, k < j → l.get? j ≠ some none) := by
  unfold rescanFree
  rw [rescanGo_eq_lastNoneIdx]
  cases h : lastNoneIdx l with
  | none => exact Or.inl ⟨rfl, lastNoneIdx_eq_none l h⟩
  | some k =>
    exact Or.inr ⟨k, by simp, (lastNoneIdx_eq_some l k h).1,
      (lastNoneIdx_eq_some l k h).2⟩

theorem neg_one_le_rescanFree (l : List (Option Conn)) :
    -1 ≤ rescanFree l := by
  rcases rescanFree_spec l with ⟨h, _⟩ | ⟨k, h, _, _⟩
  · omega
  · rw [h]; omega

theorem loop_state_of_running (s : ServerState) (env : LoopEnv) (t : Int)
    (h : s.running = true) :
    (loop s env t).state =
      (loopPoll (loopMid s env).1 (loopMid s env).2.1 env).1 := by
  simp [loop, h]

theorem loop_admitted_of_running (s : ServerState) (env : LoopEnv) (t : Int)
    (h : s.running = true) :
    (loop s env t).admitted =
      (loopMid s env).2.2 ++
        (loopPoll (loopMid s env).1 (loopMid s env).2.1 env).2 := by
  simp [loop, h]

theorem loop_residual_of_running (s : ServerState) (env : LoopEnv) (t : Int)
    (h : s.running = true) :
    (loop s env t).residual = residualMs t env.elapsedMs := by
  simp [loop, h]

theorem loopMid_admits_le_one (s : ServerState) (env : LoopEnv) :
    (loopMid s env).2.2.length ≤ 1 := by
  simp only [loopMid]
  split <;> simp

theorem loopMid_of_no_admit (s : ServerState) (env : LoopEnv)
    (h : (loopMid s env).2.2 = []) :
    (loopMid s env).1.pendingConnection = s.pendingConnection ∧
    (loopMid s env).2.1 = (step1 s.connections).2 := by
  simp only [loopMid] at h ⊢
  by_cases hc :
      (s.pendingConnection && decide ((step1 s.connections).2 > -1)) = true
  · rw [if_pos hc] at h
    simp at h
  · rw [if_neg hc] at h ⊢
    exact ⟨rfl, rfl⟩

theorem loopMid_of_pending_free (s : ServerState) (env : LoopEnv)
    (hp : s.pendingConnection = true)
    (hf : (step1 s.connections).2 > -1) :
    (loopMid s env).2.2 = [(step1 s.connections).2.toNat] := by
  simp [loopMid, hp, hf]

theorem loopMid_free_ge (s : ServerState) (env : LoopEnv) :
    -1 ≤ (loopMid s env).2.1 := by
  simp only [loopMid]
  split
  · exact neg_one_le_rescanFree _
  · rw [step1_snd]
    exact neg_one_le_rescanFree _

theorem loopPoll_admits_le_one (s2 : ServerState) (f : Int)
    (env : LoopEnv) :
    (loopPoll s2 f env).2.length ≤ 1 := by
  simp only [loopPoll]
  split
  · split
    · simp
    · split <;> simp
  · simp

theorem loopPoll_of_pending (s2 : ServerState) (f : Int) (env : LoopEnv)
    (h : s2.pendingConnection = true) :
    loopPoll s2 f env = (s2, []) := by
  simp [loopPoll, h]

theorem loopPoll_raise (s2 : ServerState) (f : Int) (env : LoopEnv)
    (hp : s2.pendingConnection = false)
    (hr : (loopPoll s2 f env).1.pendingConnection = true) :
    env.listenerReady = true ∧ ¬ (f > -1) ∧ (loopPoll s2 f env).2 = [] := by
  by_cases hl : env.listenerReady
  · by_cases hf : f > -1
    · exfalso
      simp only [loopPoll, hp, hl, Bool.not_false, Bool.true_and, if_true,
        hf, if_pos, startConnection] at hr
      rcases lt_or_ge env.accept2 0 with ha | ha
      · rw [if_pos ha] at hr
        simp at hr
      · rw [if_neg (by omega : ¬ env.accept2 < 0)] at hr
        simp at hr
    · refine ⟨hl, hf, ?_⟩
      simp [loopPoll, hp, hl, hf]
  · exfalso
    simp [loopPoll, hl, hp] at hr

theorem mem_headersSet (hs : List (String × String)) (n v : String) :
    (n, v) ∈ headersSet hs n v := by
  unfold headersSet
  split
  · next h =>
    rcases List.any_eq_true.mp h with ⟨p, hp, he⟩
    refine List.mem_map.mpr ⟨p, hp, ?_⟩
    rw [if_pos he]
  · exact List.mem_append_right _ (List.mem_singleton.mpr rfl)

/-- C1 counterexample: with both slots of a capacity-2 server free, the
step 1 scan of loop leaves `freeConnectionIdx = 1`, not the lowest free
index 0, and the admission of the pending connection in that loop call
consumes slot 1 even though slot 0 is free. -/
theorem loop_admits_lowest_counterexample :
    sTwoFree.connections.get? 0 = some none ∧
    (step1 sTwoFree.connections).2 = 1 ∧
    (loop sTwoFree envQuiet 100).admitted = [1] := by
  decide

/-- C1 (amended): the free-slot scan of loop returns the HIGHEST free
index of the reclaimed slot array (or -1 when none is free), and the
pending admission of that loop call consumes exactly the slot index the
scan produced. -/
theorem loop_admits_highest_free (slots : List (Option Conn))
    (s : ServerState) (env : LoopEnv) (t : Int) :
    (((step1 slots).2 = -1 ∧
        ∀ j : Nat, (step1 slots).1.get? j ≠ some none) ∨
      (∃ k : Nat, (step1 slots).2 = (k : Int) ∧
        (step1 slots).1.get? k = some none ∧
        ∀ j : Nat, k < j → (step1 slots).1.get? j ≠ some none)) ∧
    (s.running = true → s.pendingConnection = true →
      (step1 s.connections).2 > -1 →
      (loop s env t).admitted.head? =
        some (step1 s.connections).2.toNat) := by
  constructor
  · rw [step1_fst, step1_snd]
    exact rescanFree_spec (slots.map reclaimSlot)
  · intro h1 h2 h3
    rw [loop_admitted_of_running s env t h1,
      loopMid_of_pending_free s env h2 h3]
    simp

theorem loop_admits_highest_free_witness :
    sTwoFree.running = true ∧ sTwoFree.pendingConnection = true ∧
    (step1 sTwoFree.connections).2 > -1 ∧
    (loop sTwoFree envQuiet 100).admitted.head? =
      some (step1 sTwoFree.connections).2.toNat := by
  refine ⟨rfl, rfl, by decide, ?_⟩
  exact (loop_admits_highest_free sTwoFree.connections sTwoFree envQuiet
    100).2 rfl rfl (by decide)

/-- C2 counterexample: a loop call that starts with the gate raised and
two terminated occupants admits both the pending connection (into slot 1)
and a brand-new one (into slot 0) in the same call. -/
theorem loop_single_admission_counterexample :
    (loop sTwoTerm envBusy 100).admitted = [1, 0] ∧
    ¬ (loop sTwoTerm envBusy 100).admitted.length ≤ 1 := by
  decide

/-- C2 (amended): a single loop call admits at most two connections: at
most one pending admission in step 2 and at most one listener-driven
admission after the poll; both can occur in the same call when the
pending admission still leaves a free slot. -/
theorem loop_admits_at_most_two (s : ServerState) (env : LoopEnv)
    (t : Int) :
    (loop s env t).admitted.length ≤ 2 ∧
    (loopMid s env).2.2.length ≤ 1 ∧
    (loopPoll (loopMid s env).1 (loopMid s env).2.1 env).2.length ≤ 1 := by
  refine ⟨?_, loopMid_admits_le_one s env, loopPoll_admits_le_one _ _ _⟩
  by_cases h : s.running = true
  · rw [loop_admitted_of_running s env t h, List.length_append]
    have h1 := loopMid_admits_le_one s env
    have h2 := loopPoll_admits_le_one (loopMid s env).1 (loopMid s env).2.1 env
    omega
  · have h' : s.running = false := by simpa using h
    simp [loop, h']

/-- C3 counterexample: acceptConnection() returning 0 is a failure per
the connection contract (success is result > 0), yet startConnection
keeps the slot occupied: the rollback only triggers on a negative
result. -/
theorem startConnection_rollback_counterexample :
    ((0 : Int) ≤ 0) ∧
    (startConnection sOne 0 (cL 10) 0).1.connections = [some (cL 10)] ∧
    ¬ (startConnection sOne 0 (cL 10) 0).1.connections = [none] := by
  decide

/-- C3 (amended): in the cooperative configuration startConnection rolls
the slot back to NULL exactly when the acceptConnection() result is
strictly negative; for any result that is 0 or positive the slot stays
occupied by the new connection, so a result of 0 — a failure per the
connection contract — does not roll back. -/
theorem startConnection_rollback (s : ServerState) (idx : Nat) (c : Conn)
    (r : Int) (hidx : idx < s.connections.length) :
    (r < 0 →
       (startConnection s idx c r).1.connections[idx]? = some none) ∧
    (0 ≤ r →
       (startConnection s idx c r).1.connections[idx]? = some (some c)) := by
  constructor
  · intro hr
    simp only [startConnection, if_pos hr]
    exact List.getElem?_set_eq_of_lt none (by simpa using hidx)
  · intro hr
    simp only [startConnection, if_neg (by omega : ¬ r < 0)]
    exact List.getElem?_set_eq_of_lt (some c) (by simpa using hidx)

theorem startConnection_rollback_witness :
    0 < sOne.connections.length ∧ ((-1 : Int) < 0) ∧
    (startConnection sOne 0 (cL 10) (-1)).1.connections[0]? = some none := by
  refine ⟨by decide, by decide, ?_⟩
  exact (startConnection_rollback sOne 0 (cL 10) (-1) (by decide)).1
    (by decide)

/-- C4: the admission gate is raised during loop only when the listener
was reported read-ready while the scan had found no free slot and the
gate was not already raised at poll time (a raised gate keeps loop from
watching the listener, so no second raise and no state change can happen
until an admission clears it), the gate transitions from set to clear
only when an admission (startConnection) occurred during the call, and
startConnection clears the flag and drains the queue as its first step,
whatever its accept result. -/
theorem gate_protocol (s : ServerState) (env : LoopEnv) (t : Int)
    (idx : Nat) (c : Conn) (r : Int) :
    ((loop s env t).state.pendingConnection = true → s.running = true →
       (loopMid s env).1.pendingConnection = false →
       env.listenerReady = true ∧ (loopMid s env).2.1 = -1) ∧
    (s.running = true → (loopMid s env).1.pendingConnection = true →
       (loop s env t).state = (loopMid s env).1 ∧
       (loop s env t).admitted = (loopMid s env).2.2) ∧
    (s.running = true → s.pendingConnection = true →
       (loop s env t).state.pendingConnection = false →
       (loop s env t).admitted ≠ []) ∧
    ((startConnection s idx c r).1.pendingConnection = false ∧
     (startConnection s idx c r).1.pendingQueue = none) := by
  refine ⟨?_, ?_, ?_, ?_⟩
  · intro hout hr hmid
    rw [loop_state_of_running s env t hr] at hout
    obtain ⟨hl, hf, -⟩ := loopPoll_raise _ _ env hmid hout
    have hge := loopMid_free_ge s env
    exact ⟨hl, by omega⟩
  · intro hr hmid
    rw [loop_state_of_running s env t hr,
      loop_admitted_of_running s env t hr,
      loopPoll_of_pending _ _ env hmid]
    simp
  · intro hr hp hcleared
    by_cases hm : (loopMid s env).2.2 = []
    · obtain ⟨hpm, -⟩ := loopMid_of_no_admit s env hm
      have hmid : (loopMid s env).1.pendingConnection = true := by
        rw [hpm]; exact hp
      rw [loop_state_of_running s env t hr,
        loopPoll_of_pending _ _ env hmid] at hcleared
      rw [hmid] at hcleared
      simp at hcleared
    · rw [loop_admitted_of_running s env t hr]
      intro hcontra
      exact hm (List.append_eq_nil.mp hcontra).1
  · by_cases hr' : r < 0 <;> simp [startConnection, hr']

theorem gate_protocol_witness :
    (loop sFull envBusy 100).state.pendingConnection = true ∧
    sFull.running = true ∧
    (loopMid sFull envBusy).1.pendingConnection = false ∧
    envBusy.listenerReady = true ∧ (loopMid sFull envBusy).2.1 = -1 := by
  have h := (gate_protocol sFull envBusy 100 0 (cL 9) 1).1 (by decide) rfl
    (by decide)
  exact ⟨by decide, rfl, by decide, h.1, h.2⟩

/-- C5: stop on a running server terminates for every capacity and every
mix of occupants that eventually report closed, and on return running is
false, the listener socket is unbound, and every slot of the
unchanged-length pool is empty; stop on a stopped server is a no-op. -/
theorem stop_spec (s : ServerState) :
    (s.running = true →
       (stop s).running = false ∧ (stop s).socket = -1 ∧
       (stop s).connections.length = s.connections.length ∧
       ∀ x ∈ (stop s).connections, x = none) ∧
    (s.running = false → stop s = s) := by
  constructor
  · intro h
    simp only [stop, h, if_pos, teardownSocket]
    exact ⟨by trivial, by trivial, drainSlots_length _, drainSlots_all_none _⟩
  · intro h
    simp [stop, h]

theorem stop_spec_witness :
    sStop.running = true ∧
    ((stop sStop).running = false ∧ (stop sStop).socket = -1 ∧
     (stop sStop).connections.length = sStop.connections.length ∧
     ∀ x ∈ (stop sStop).connections, x = none) ∧
    sIdle.running = false ∧ stop sIdle = sIdle :=
  ⟨rfl, (stop_spec sStop).1 rfl, rfl, (stop_spec sIdle).2 rfl⟩

/-- C6: start on a running server returns success and changes nothing;
start on a stopped server fails exactly when the socket, bind or listen
step fails, and every failure leaves the listener unbound (-1) and the
server not running, so start can be retried. -/
theorem start_spec (s : ServerState) (env : SetupEnv) :
    (s.running = true → start s env = (s, 1)) ∧
    (s.running = false →
      (((start s env).2 = 0) ↔
         (env.sockFd < 0 ∨ env.bindOk = false ∨ env.listenOk = false)) ∧
      ((start s env).2 = 0 →
         (start s env).1.socket = -1 ∧ (start s env).1.running = false)) := by
  constructor
  · intro h
    simp [start, h]
  · intro h
    by_cases h1 : env.sockFd ≥ 0 <;> by_cases h2 : env.bindOk <;>
      by_cases h3 : env.listenOk <;>
        simp [start, setupSocket, h, h1, h2, h3] <;> omega

theorem start_spec_witness :
    sIdle.running = false ∧
    ((start sIdle envSetupBad).2 = 0 ∧
     (start sIdle envSetupBad).1.socket = -1 ∧
     (start sIdle envSetupBad).1.running = false) ∧
    baseServer.running = true ∧
    start baseServer envSetupGood = (baseServer, 1) := by
  have h2 := (start_spec sIdle envSetupBad).2 rfl
  have hfail : (start sIdle envSetupBad).2 = 0 := h2.1.mpr (by decide)
  have hleft := h2.2 hfail
  exact ⟨rfl, ⟨hfail, hleft.1, hleft.2⟩, rfl,
    (start_spec baseServer envSetupGood).1 rfl⟩

/-- C7: a loop call on a running server returns the remaining budget
computed by the clamped uint32 subtraction; whenever the budget is a
nonnegative int and the measured elapsed time is at most 2^31 ms (any
physically possible single poll), the residual lies between 0 and the
budget, and a poll that overran the budget yields exactly 0. -/
theorem loop_residual_spec (s : ServerState) (env : LoopEnv) (t : Int)
    (hr : s.running = true) (h0 : 0 ≤ t) (h1 : t ≤ 2147483647)
    (h2 : env.elapsedMs ≤ 2147483648) :
    (loop s env t).residual = residualMs t env.elapsedMs ∧
    0 ≤ (loop s env t).residual ∧ (loop s env t).residual ≤ t ∧
    (t < (env.elapsedMs : Int) → (loop s env t).residual = 0) := by
  have he := loop_residual_of_running s env t hr
  rw [he]
  refine ⟨rfl, ?_⟩
  simp only [residualMs]
  by_cases hd : ((t - (env.elapsedMs : Int)) % 4294967296).toNat > 2147483647
  · rw [if_pos hd]
    omega
  · rw [if_neg hd]
    omega

theorem loop_residual_spec_witness :
    sOne.running = true ∧ (0 : Int) ≤ 100 ∧
    (100 : Int) ≤ 2147483647 ∧ envQuiet.elapsedMs ≤ 2147483648 ∧
    0 ≤ (loop sOne envQuiet 100).residual ∧
    (loop sOne envQuiet 100).residual ≤ 100 := by
  have h := loop_residual_spec sOne envQuiet 100 rfl (by decide) (by decide)
    (by decide)
  exact ⟨rfl, by decide, by decide, by decide, h.2.1, h.2.2.1⟩

/-- C8 counterexample: after setDefaultHeader("X","1") an admitted
connection holds the shared mapping [("X","1")]; a subsequent
setDefaultHeader("Y","2") mutates that shared mapping in place, so the
mapping the admitted connection holds is now [("X","1"),("Y","2")] — it
did change after admission. -/
theorem default_headers_retroactive_counterexample :
    connectionHeaders (setDefaultHeader baseServer "X" "1") = [("X", "1")] ∧
    connectionHeaders
        (setDefaultHeader (setDefaultHeader baseServer "X" "1") "Y" "2") =
      [("X", "1"), ("Y", "2")] ∧
    ¬ connectionHeaders
          (setDefaultHeader (setDefaultHeader baseServer "X" "1") "Y" "2") =
        connectionHeaders (setDefaultHeader baseServer "X" "1") := by
  decide

/-- C8 (amended): a connection admitted after setDefaultHeader("X","1")
receives a reference to the shared default-headers mapping, which at that
moment contains X mapped to 1; a setDefaultHeader call made after the
admission updates that same shared mapping, so the update is visible
through the reference the admitted connection already holds (only
subsequently created connections are guaranteed unaffected histories if
the collaborator copies instead of re-reading). -/
theorem default_headers_shared (s : ServerState) (n v n2 v2 : String) :
    (n, v) ∈ connectionHeaders (setDefaultHeader s n v) ∧
    connectionHeaders (setDefaultHeader (setDefaultHeader s n v) n2 v2) =
      headersSet (connectionHeaders (setDefaultHeader s n v)) n2 v2 := by
  exact ⟨mem_headersSet s.defaultHeaders n v, rfl⟩

/-- C9: the select timeout of loop is tv_sec = budgetMs / 1000 seconds
plus tv_usec = (budgetMs - budgetMs / 1000) * 1000 microseconds; for
budgetMs below 1000 this equals budgetMs milliseconds, but from 1000 on
it strictly exceeds budgetMs (1500 yields 1 s plus 1499000 us). -/
theorem pollTimeout_spec (t : Int) (h : 0 ≤ t) :
    (pollTimeout t).1 = t.tdiv 1000 ∧
    (pollTimeout t).2 = (t - t.tdiv 1000) * 1000 ∧
    (t < 1000 → pollTimeoutMicros t = t * 1000) ∧
    (1000 ≤ t → t * 1000 < pollTimeoutMicros t) ∧
    pollTimeout 1500 = (1, 1499000) := by
  have htd : t.tdiv 1000 = t / 1000 := Int.tdiv_eq_ediv h (by norm_num)
  refine ⟨rfl, rfl, ?_, ?_, by decide⟩
  · intro hlt
    simp only [pollTimeoutMicros, pollTimeout, htd]
    omega
  · intro hge
    simp only [pollTimeoutMicros, pollTimeout, htd]
    omega

theorem pollTimeout_spec_witness :
    (0 : Int) ≤ 1500 ∧ (1000 : Int) ≤ 1500 ∧
    (1500 : Int) * 1000 < pollTimeoutMicros 1500 ∧
    pollTimeout 1500 = (1, 1499000) := by
  have h := pollTimeout_spec 1500 (by decide)
  exact ⟨by decide, by decide, h.2.2.2.1 (by decide), h.2.2.2.2⟩

/-- C10: stop touches neither the admission gate nor the signaling
channel, start preserves both, and startConnection is the operation that
clears them; in particular a pending admission recorded before shutdown
persists across stop and a subsequent start. -/
theorem pending_gate_frame (s : ServerState) (env : SetupEnv) (idx : Nat)
    (c : Conn) (r : Int) :
    (stop s).pendingConnection = s.pendingConnection ∧
    (stop s).pendingQueue = s.pendingQueue ∧
    (start s env).1.pendingConnection = s.pendingConnection ∧
    (start s env).1.pendingQueue = s.pendingQueue ∧
    (start (stop s) env).1.pendingConnection = s.pendingConnection ∧
    (startConnection s idx c r).1.pendingConnection = false ∧
    (startConnection s idx c r).1.pendingQueue = none := by
  have hstop : ∀ s' : ServerState,
      (stop s').pendingConnection = s'.pendingConnection ∧
      (stop s').pendingQueue = s'.pendingQueue := by
    intro s'
    by_cases h : s'.running = true <;> simp [stop, teardownSocket, h]
  have hstart : ∀ s' : ServerState,
      (start s' env).1.pendingConnection = s'.pendingConnection ∧
      (start s' env).1.pendingQueue = s'.pendingQueue := by
    intro s'
    by_cases h : s'.running = false
    · by_cases h1 : env.sockFd ≥ 0 <;> by_cases h2 : env.bindOk <;>
        by_cases h3 : env.listenOk <;>
          simp [start, setupSocket, h, h1, h2, h3]
    · simp [start, h]
  have hsc : (startConnection s idx c r).1.pendingConnection = false ∧
      (startConnection s idx c r).1.pendingQueue = none := by
    by_cases hr' : r < 0 <;> simp [startConnection, hr']
  exact ⟨(hstop s).1, (hstop s).2, (hstart s).1, (hstart s).2,
    by rw [(hstart (stop s)).1, (hstop s).1], hsc.1, hsc.2⟩

end HttpsServer
